import Mathlib

/-!
Shallow embedding of the Hailey-bingo single-page application
(`src/src/App.tsx`). The source file holds two revisions of `App.tsx`;
the later revision (with the theme store) is the primary one embedded
here, and the win detector of the earlier revision is embedded separately
for the equivalence result.

Boards are JS arrays of arrays of cells; they are embedded as
`List (List Cell)`. JS array indexing (which yields `undefined` out of
range, never reached on well-formed 5×5 boards) is embedded with `getD`
against a default cell.
-/

/-- `BingoCell` of `App.tsx`: `{ question: string; checked: boolean }`. -/
structure Cell where
  question : String
  checked : Bool
deriving DecidableEq

instance : Inhabited Cell := ⟨⟨"", false⟩⟩

/-- A board as the app stores it: a JS array of arrays of cells. -/
abbrev Board := List (List Cell)

/-- Well-formedness of a board: the 5×5 shape the app maintains. -/
def boardWF (b : Board) : Prop := b.length = 5 ∧ ∀ r ∈ b, r.length = 5

instance (b : Board) : Decidable (boardWF b) := by
  unfold boardWF; exact inferInstance

/-- Cell access `board[i][j]` (in-range on well-formed boards). -/
def cellAt (b : Board) (i j : Nat) : Cell := (b.getD i []).getD j default

/-- `isBingo` of the later revision of `App.tsx` (lines 473–486): the row
loop, the column loop, then the two diagonal checks, each an early
`return true`; embedded as a right-nested boolean disjunction. -/
def isBingo (board : Board) : Bool :=
  ((List.range 5).any fun i => (board.getD i []).all fun cell => cell.checked) ||
  ((List.range 5).any fun j => board.all fun row => (row.getD j default).checked) ||
  (board.enum.all fun p => (p.2.getD p.1 default).checked) ||
  (board.enum.all fun p => (p.2.getD (4 - p.1) default).checked)

/-- `isBingo` of the earlier revision of `App.tsx` (lines 101–114); its
body is textually identical to the later revision's. -/
def isBingoEarly (board : Board) : Bool :=
  ((List.range 5).any fun i => (board.getD i []).all fun cell => cell.checked) ||
  ((List.range 5).any fun j => board.all fun row => (row.getD j default).checked) ||
  (board.enum.all fun p => (p.2.getD p.1 default).checked) ||
  (board.enum.all fun p => (p.2.getD (4 - p.1) default).checked)

/-- The specification's notion of a completed line: one of the 5 rows,
5 columns, the main diagonal or the anti-diagonal has every cell
checked. -/
def hasBingoLine (b : Board) : Prop :=
  (∃ i < 5, ∀ j < 5, (cellAt b i j).checked = true) ∨
  (∃ j < 5, ∀ i < 5, (cellAt b i j).checked = true) ∨
  (∀ i < 5, (cellAt b i i).checked = true) ∨
  (∀ i < 5, (cellAt b i (4 - i)).checked = true)

theorem row_length_of_wf {b : Board} (h : boardWF b) {i : Nat} (hi : i < 5) :
    (b.getD i []).length = 5 := by
  obtain ⟨hlen, hrows⟩ := h
  have hib : i < b.length := by omega
  rw [List.getD_eq_getElem _ _ hib]
  exact hrows _ (List.getElem_mem hib)

theorem cellAt_eq_inner {b : Board} {i j : Nat} (hj : j < (b.getD i []).length) :
    cellAt b i j = (b.getD i [])[j] := by
  unfold cellAt
  exact List.getD_eq_getElem _ _ hj

theorem getD_outer_eq {b : Board} {i : Nat} (hi : i < b.length) :
    b.getD i [] = b[i] :=
  List.getD_eq_getElem _ _ hi

theorem rows_any_iff {b : Board} (h : boardWF b) :
    ((List.range 5).any fun i => (b.getD i []).all fun cell => cell.checked) = true ↔
      ∃ i < 5, ∀ j < 5, (cellAt b i j).checked = true := by
  rw [List.any_eq_true]
  constructor
  · rintro ⟨i, hi, hall⟩
    rw [List.mem_range] at hi
    refine ⟨i, hi, fun j hj => ?_⟩
    have hrl := row_length_of_wf h hi
    have hjl : j < (b.getD i []).length := by omega
    have hc := List.all_eq_true.mp hall _ (List.getElem_mem hjl)
    rw [cellAt_eq_inner hjl]
    exact hc
  · rintro ⟨i, hi, hrow⟩
    refine ⟨i, List.mem_range.mpr hi, ?_⟩
    rw [List.all_eq_true]
    intro c hc
    obtain ⟨j, hj, rfl⟩ := List.mem_iff_getElem.mp hc
    have hrl := row_length_of_wf h hi
    have hj5 : j < 5 := by omega
    have hx := hrow j hj5
    rw [cellAt_eq_inner hj] at hx
    exact hx

theorem cols_any_iff {b : Board} (h : boardWF b) :
    ((List.range 5).any fun j => b.all fun row => (row.getD j default).checked) = true ↔
      ∃ j < 5, ∀ i < 5, (cellAt b i j).checked = true := by
  rw [List.any_eq_true]
  constructor
  · rintro ⟨j, hj, hall⟩
    rw [List.mem_range] at hj
    refine ⟨j, hj, fun i hi => ?_⟩
    have hib : i < b.length := by have hb := h.1; omega
    have hc := List.all_eq_true.mp hall _ (List.getElem_mem hib)
    show (cellAt b i j).checked = true
    unfold cellAt
    rw [getD_outer_eq hib]
    exact hc
  · rintro ⟨j, hj, hcol⟩
    refine ⟨j, List.mem_range.mpr hj, ?_⟩
    rw [List.all_eq_true]
    intro row hrow
    obtain ⟨i, hib, rfl⟩ := List.mem_iff_getElem.mp hrow
    have hi5 : i < 5 := by have hb := h.1; omega
    have hx := hcol i hi5
    unfold cellAt at hx
    rw [getD_outer_eq hib] at hx
    exact hx

theorem diag_all_iff {b : Board} (h : boardWF b) (f : Nat → Nat) :
    (b.enum.all fun p => (p.2.getD (f p.1) default).checked) = true ↔
      ∀ i < 5, (cellAt b i (f i)).checked = true := by
  rw [List.all_eq_true]
  constructor
  · intro hall i hi
    have hib : i < b.length := by have hb := h.1; omega
    have hie : i < b.enum.length := by rw [List.enum_length]; exact hib
    have hmem : (i, b[i]) ∈ b.enum := by
      have he := List.getElem_enum b i hie
      rw [← he]
      exact List.getElem_mem hie
    have hc := hall _ hmem
    show (cellAt b i (f i)).checked = true
    unfold cellAt
    rw [getD_outer_eq hib]
    exact hc
  · intro hd p hp
    obtain ⟨k, hk, rfl⟩ := List.mem_iff_getElem.mp hp
    have hkb : k < b.length := by rw [List.enum_length] at hk; exact hk
    have hk5 : k < 5 := by have hb := h.1; omega
    have hx := hd k hk5
    unfold cellAt at hx
    rw [getD_outer_eq hkb] at hx
    simp only [List.getElem_enum]
    exact hx

theorem diag_main_iff {b : Board} (h : boardWF b) :
    (b.enum.all fun p => (p.2.getD p.1 default).checked) = true ↔
      ∀ i < 5, (cellAt b i i).checked = true := by
  simpa using diag_all_iff h (fun i => i)

theorem diag_anti_iff {b : Board} (h : boardWF b) :
    (b.enum.all fun p => (p.2.getD (4 - p.1) default).checked) = true ↔
      ∀ i < 5, (cellAt b i (4 - i)).checked = true :=
  diag_all_iff h (fun i => 4 - i)

/-- C1: for every 5×5 board, `isBingo` returns true iff at least one of
the 11 lines (5 rows, 5 columns, main diagonal, anti-diagonal) has
`checked = true` in every one of its 5 cells; otherwise false. -/
theorem isBingo_iff_hasBingoLine (b : Board) (h : boardWF b) :
    isBingo b = true ↔ hasBingoLine b := by
  unfold isBingo hasBingoLine
  simp only [Bool.or_eq_true]
  rw [rows_any_iff h, cols_any_iff h, diag_main_iff h, diag_anti_iff h]
  rw [or_assoc, or_assoc]

/-- A concrete 5×5 board (row 0 fully checked) used to instantiate the
hypothesis-bearing theorems. -/
def demoBoard : Board :=
  [[⟨"q0", true⟩, ⟨"q1", true⟩, ⟨"q2", true⟩, ⟨"q3", true⟩, ⟨"q4", true⟩],
   [⟨"q5", false⟩, ⟨"q6", false⟩, ⟨"q7", false⟩, ⟨"q8", false⟩, ⟨"q9", false⟩],
   [⟨"q10", false⟩, ⟨"q11", false⟩, ⟨"q12", false⟩, ⟨"q13", false⟩, ⟨"q14", false⟩],
   [⟨"q15", false⟩, ⟨"q16", false⟩, ⟨"q17", false⟩, ⟨"q18", false⟩, ⟨"q19", false⟩],
   [⟨"q20", false⟩, ⟨"q21", false⟩, ⟨"q22", false⟩, ⟨"q23", false⟩, ⟨"q24", false⟩]]

/-- C1 witness: the theorem applied at a concrete 5×5 board. -/
theorem isBingo_iff_hasBingoLine_witness :
    boardWF demoBoard ∧ (isBingo demoBoard = true ↔ hasBingoLine demoBoard) :=
  ⟨by decide, isBingo_iff_hasBingoLine demoBoard (by decide)⟩

/-- C9: the win detectors of the two revisions of `App.tsx` are
extensionally equal. -/
theorem isBingoEarly_eq_isBingo (b : Board) : isBingoEarly b = isBingo b := rfl

/-! ## Board State Store: the toggle handler -/

/-- The modal state of `App.tsx`: `{ open, question, row, col }`; `row`
and `col` are JS numbers holding either a grid coordinate or the `-1`
sentinel, embedded as `Int`. The field `open` is renamed `isOpen`
(`open` is a Lean keyword). -/
structure ModalState where
  isOpen : Bool
  question : String
  row : Int
  col : Int

/-- The board effect of `onModalCheckHandler` (later revision lines
455–467): return unchanged on the `-1` sentinel, otherwise flip
`checked` on the cell at `(modal.row, modal.col)` via the nested
index-aware maps of the source. The accompanying `setModal` call (which
only closes the modal) is not part of the board state and is omitted. -/
def onModalCheckHandler (modal : ModalState) (prev : Board) : Board :=
  if modal.row = -1 ∨ modal.col = -1 then prev
  else
    prev.mapIdx fun rIdx r =>
      if (rIdx : Int) ≠ modal.row then r
      else r.mapIdx fun cIdx cell =>
        if (cIdx : Int) ≠ modal.col then cell
        else { cell with checked := !cell.checked }

theorem getElem_mapIdx_eq {α β : Type} (f : Nat → α → β) (l : List α) (i : Nat)
    (h : i < l.length) (h2 : i < (List.mapIdx f l).length) :
    (List.mapIdx f l)[i] = f i l[i] := by
  simp [List.mapIdx_eq_enum_map, List.getElem_map, List.getElem_enum, Function.uncurry]

theorem getD_mapIdx {α β : Type} (f : Nat → α → β) (l : List α) (i : Nat)
    (dA : α) (dB : β) (h : i < l.length) :
    (List.mapIdx f l).getD i dB = f i (l.getD i dA) := by
  have h2 : i < (List.mapIdx f l).length := by rw [List.length_mapIdx]; exact h
  rw [List.getD_eq_getElem _ _ h2, List.getD_eq_getElem _ _ h]
  exact getElem_mapIdx_eq f l i h h2

theorem boardWF_onModalCheck (m : ModalState) (b : Board) (h : boardWF b) :
    boardWF (onModalCheckHandler m b) := by
  unfold onModalCheckHandler
  split
  · exact h
  · constructor
    · rw [List.length_mapIdx]; exact h.1
    · intro r hr
      obtain ⟨i, hib, rfl⟩ := List.mem_iff_getElem.mp hr
      have hib2 : i < b.length := by rwa [List.length_mapIdx] at hib
      rw [getElem_mapIdx_eq _ b i hib2 hib]
      split
      · exact h.2 _ (List.getElem_mem hib2)
      · rw [List.length_mapIdx]
        exact h.2 _ (List.getElem_mem hib2)

/-- Pointwise description of the toggle: the targeted cell is flipped,
every other position is untouched. -/
theorem cellAt_onModalCheck (m : ModalState) (b : Board) (row col i j : Nat)
    (hwf : boardWF b) (hrow : row < 5) (hcol : col < 5) (hi : i < 5) (hj : j < 5)
    (hmr : m.row = (row : Int)) (hmc : m.col = (col : Int)) :
    cellAt (onModalCheckHandler m b) i j =
      (if i = row ∧ j = col then
        { cellAt b i j with checked := !(cellAt b i j).checked }
      else cellAt b i j) := by
  obtain ⟨hb5, hrows⟩ := hwf
  have hg : ¬(m.row = -1 ∨ m.col = -1) := by
    rw [hmr, hmc]
    push_neg
    constructor <;> omega
  have hib : i < b.length := by omega
  have hrl : (b.getD i []).length = 5 := by
    rw [getD_outer_eq hib]
    exact hrows _ (List.getElem_mem hib)
  have hjl : j < (b.getD i []).length := by omega
  unfold onModalCheckHandler
  rw [if_neg hg, hmr, hmc]
  unfold cellAt
  rw [getD_mapIdx _ b i [] [] hib]
  by_cases hir : i = row
  · subst hir
    rw [if_neg (by omega : ¬((i : Int) ≠ (i : Int)))]
    rw [getD_mapIdx _ _ j default default hjl]
    by_cases hjc : j = col
    · subst hjc
      rw [if_neg (by omega : ¬((j : Int) ≠ (j : Int)))]
      rw [if_pos ⟨rfl, rfl⟩]
    · rw [if_pos (by omega : ((j : Int) ≠ (col : Int)))]
      rw [if_neg (by tauto : ¬(i = i ∧ j = col))]
  · rw [if_pos (by omega : ((i : Int) ≠ (row : Int)))]
    rw [if_neg (by tauto : ¬(i = row ∧ j = col))]

/-- All cells other than `(row, col)` agree between `b` and `bNew`. -/
def sameOutside (b bNew : Board) (row col : Nat) : Prop :=
  ∀ i j, i < 5 → j < 5 → ¬(i = row ∧ j = col) → cellAt bNew i j = cellAt b i j

/-- C5: for every 5×5 board and in-range target, the check handler flips
`checked` on exactly the targeted cell; its question and every other
cell are unchanged. -/
theorem onModalCheck_toggles (m : ModalState) (b : Board) (row col : Nat)
    (hwf : boardWF b) (hrow : row < 5) (hcol : col < 5)
    (hmr : m.row = (row : Int)) (hmc : m.col = (col : Int)) :
    (cellAt (onModalCheckHandler m b) row col).checked = !(cellAt b row col).checked ∧
    (cellAt (onModalCheckHandler m b) row col).question = (cellAt b row col).question ∧
    sameOutside b (onModalCheckHandler m b) row col := by
  refine ⟨?_, ?_, ?_⟩
  · rw [cellAt_onModalCheck m b row col row col hwf hrow hcol hrow hcol hmr hmc]
    rw [if_pos ⟨rfl, rfl⟩]
  · rw [cellAt_onModalCheck m b row col row col hwf hrow hcol hrow hcol hmr hmc]
    rw [if_pos ⟨rfl, rfl⟩]
  · intro i j hi hj hne
    rw [cellAt_onModalCheck m b row col i j hwf hrow hcol hi hj hmr hmc]
    rw [if_neg hne]

theorem board_ext {b₁ b₂ : Board} (h₁ : boardWF b₁) (h₂ : boardWF b₂)
    (h : ∀ i j, i < 5 → j < 5 → cellAt b₁ i j = cellAt b₂ i j) : b₁ = b₂ := by
  apply List.ext_getElem (by rw [h₁.1, h₂.1])
  intro i hi1 hi2
  apply List.ext_getElem
  · rw [h₁.2 _ (List.getElem_mem hi1), h₂.2 _ (List.getElem_mem hi2)]
  · intro j hj1 hj2
    have hi5 : i < 5 := by have := h₁.1; omega
    have hr1 : (b₁[i]).length = 5 := h₁.2 _ (List.getElem_mem hi1)
    have hj5 : j < 5 := by omega
    have hx := h i j hi5 hj5
    unfold cellAt at hx
    rw [getD_outer_eq hi1, getD_outer_eq hi2] at hx
    rw [List.getD_eq_getElem _ _ hj1, List.getD_eq_getElem _ _ hj2] at hx
    exact hx

/-- C6: toggling the same in-range cell twice restores the board
bit-for-bit. -/
theorem onModalCheck_involutive (m : ModalState) (b : Board) (row col : Nat)
    (hwf : boardWF b) (hrow : row < 5) (hcol : col < 5)
    (hmr : m.row = (row : Int)) (hmc : m.col = (col : Int)) :
    onModalCheckHandler m (onModalCheckHandler m b) = b := by
  have hwf1 := boardWF_onModalCheck m b hwf
  apply board_ext (boardWF_onModalCheck m _ hwf1) hwf
  intro i j hi hj
  rw [cellAt_onModalCheck m _ row col i j hwf1 hrow hcol hi hj hmr hmc]
  rw [cellAt_onModalCheck m b row col i j hwf hrow hcol hi hj hmr hmc]
  by_cases hx : i = row ∧ j = col
  · rw [if_pos hx, if_pos hx]
    generalize cellAt b i j = c
    cases c
    simp
  · rw [if_neg hx, if_neg hx]

/-- C10: with the sentinel coordinates (`row = -1` or `col = -1`, i.e.
no cell selected) the check handler leaves the board unchanged. -/
theorem onModalCheck_sentinel (m : ModalState) (b : Board)
    (h : m.row = -1 ∨ m.col = -1) :
    onModalCheckHandler m b = b := by
  unfold onModalCheckHandler
  rw [if_pos h]

/-- The modal state targeting cell `(1, 2)`, for instantiating the
toggle theorems. -/
def demoModal : ModalState :=
  { isOpen := true, question := "q7", row := 1, col := 2 }

/-- C5 witness: the toggle theorem at board `demoBoard`, target (1,2). -/
theorem onModalCheck_toggles_witness :
    boardWF demoBoard ∧
    ((cellAt (onModalCheckHandler demoModal demoBoard) 1 2).checked
        = !(cellAt demoBoard 1 2).checked ∧
      (cellAt (onModalCheckHandler demoModal demoBoard) 1 2).question
        = (cellAt demoBoard 1 2).question ∧
      sameOutside demoBoard (onModalCheckHandler demoModal demoBoard) 1 2) :=
  ⟨by decide,
    onModalCheck_toggles demoModal demoBoard 1 2 (by decide) (by decide) (by decide)
      (by decide) (by decide)⟩

/-- C6 witness: toggling (1,2) twice on `demoBoard` restores it. -/
theorem onModalCheck_involutive_witness :
    boardWF demoBoard ∧
    onModalCheckHandler demoModal (onModalCheckHandler demoModal demoBoard) = demoBoard :=
  ⟨by decide,
    onModalCheck_involutive demoModal demoBoard 1 2 (by decide) (by decide) (by decide)
      (by decide) (by decide)⟩

/-- The closed modal state (both coordinates at the `-1` sentinel). -/
def closedModal : ModalState :=
  { isOpen := false, question := "", row := -1, col := -1 }

/-- C10 witness: the sentinel theorem at `closedModal` and `demoBoard`. -/
theorem onModalCheck_sentinel_witness :
    (closedModal.row = -1 ∨ closedModal.col = -1) ∧
    onModalCheckHandler closedModal demoBoard = demoBoard :=
  ⟨Or.inl rfl, onModalCheck_sentinel closedModal demoBoard (Or.inl rfl)⟩

/-! ## Theme Store -/

/-- The theme enumeration: the two string literals `"light" | "dark"` of
`App.tsx`. -/
inductive Theme where
  | light
  | dark
deriving DecidableEq

/-- The string persisted for a theme (the value written to the
`"bingo-theme"` slot). -/
def themeToString : Theme → String
  | Theme.light => "light"
  | Theme.dark => "dark"

/-- `onThemeToggleHandler` (later revision lines 469–471):
`prev === "light" ? "dark" : "light"`. -/
def onThemeToggleHandler : Theme → Theme
  | Theme.light => Theme.dark
  | Theme.dark => Theme.light

/-- The theme store together with its persistence slot
(`localStorage["bingo-theme"]`). -/
structure ThemeStore where
  theme : Theme
  slot : Option String

/-- One toggle interaction: the handler flips the theme and the
`useEffect` on `[theme]` (lines 424–426) writes the new value to the
slot before the next interaction. -/
def themeToggleStep (s : ThemeStore) : ThemeStore :=
  let t := onThemeToggleHandler s.theme
  { theme := t, slot := some (themeToString t) }

/-- C8: two consecutive theme toggles restore the starting theme, and
after each single toggle the persisted slot holds exactly the in-memory
theme's value. -/
theorem themeToggle_roundtrip (s : ThemeStore) :
    (themeToggleStep (themeToggleStep s)).theme = s.theme ∧
    (themeToggleStep s).slot = some (themeToString (themeToggleStep s).theme) ∧
    (themeToggleStep (themeToggleStep s)).slot
      = some (themeToString (themeToggleStep (themeToggleStep s)).theme) := by
  obtain ⟨t, slot⟩ := s
  cases t <;> exact ⟨rfl, rfl, rfl⟩

/-! ## Search Filter -/

/-- JS `String.prototype.toLowerCase`, embedded character-wise. -/
def jsToLowerCase (s : String) : String := ⟨s.data.map Char.toLower⟩

/-- JS `String.prototype.includes`: substring containment of `needle`
in `hay`. -/
def jsIncludes (hay needle : String) : Bool := decide (needle.data <:+: hay.data)

/-- The cell-visibility test of the render loop (later revision lines
615–621): `searchText = search.trim().toLowerCase()`, and the cell is
skipped iff `searchText` is truthy (non-empty) and the lowercased
question does not include it. -/
def isVisible (cell : Cell) (search : String) : Bool :=
  let searchText := jsToLowerCase search.trim
  if searchText ≠ "" && !(jsIncludes (jsToLowerCase cell.question) searchText) then false
  else true

theorem jsToLowerCase_eq_empty_iff (s : String) : jsToLowerCase s = "" ↔ s = "" := by
  constructor
  · intro h
    have hd := congrArg String.data h
    simp only [jsToLowerCase] at hd
    have : s.data = [] := by
      have hmap : s.data.map Char.toLower = [] := hd
      exact List.map_eq_nil_iff.mp hmap
    exact String.ext this
  · intro h
    rw [h]
    rfl

/-- C7: a cell is visible iff the whitespace-trimmed query is empty, or
the case-folded question contains the case-folded trimmed query as a
substring; in particular every cell is visible under an empty or
all-whitespace query. -/
theorem isVisible_iff (cell : Cell) (search : String) :
    isVisible cell search = true ↔
      (search.trim = "" ∨
        (jsToLowerCase search.trim).data <:+: (jsToLowerCase cell.question).data) := by
  unfold isVisible
  by_cases he : search.trim = ""
  · rw [he]
    simp [jsToLowerCase]
  · have hne : ¬(jsToLowerCase search.trim = "") := fun h =>
      he ((jsToLowerCase_eq_empty_iff search.trim).mp h)
    by_cases hP : (jsToLowerCase search.trim).data <:+: (jsToLowerCase cell.question).data
    · simp [hne, hP, jsIncludes]
    · simp [hne, hP, he, jsIncludes]

/-! ## Board State Store: initialization / reconciliation -/

/-- The outcome of reading and parsing the `"bingo-board-state"` slot in
`getInitialBoard`: the slot may be absent (`localStorage.getItem`
returned `null`), the stored string may be malformed (`JSON.parse` or
the subsequent `.flat()` / `.question` access throws, landing in the
`catch`), or it parses to a nested array of cells of arbitrary
dimensions. -/
inductive Persisted where
  | absent
  | malformed
  | grid (g : Board)

/-- The reconciliation check of `getInitialBoard`:
`flatQuestions.every((q, i) => q === flatSaved[i])`. An out-of-range
JS index yields `undefined`, which is `===`-unequal to every string;
this is embedded by comparing with the optional lookup. -/
def questionsMatch (flatQuestions flatSaved : List String) : Bool :=
  flatQuestions.enum.all fun p => flatSaved[p.1]? == some p.2

/-- The fresh grid built from the catalog:
`Array.from({length: 5}, (_, row) => Array.from({length: 5}, (_, col) =>
({question: questionsData[row*5+col].question, checked: false})))`.
JS indexing into the catalog is embedded with `getD` (in range for the
25-entry catalog). -/
def freshBoard (catalog : List String) : Board :=
  (List.range 5).map fun row => (List.range 5).map fun col =>
    { question := catalog.getD (row * 5 + col) "", checked := false }

/-- `getInitialBoard` (later revision lines 383–407): adopt the parsed
grid verbatim when the catalog matches the flattened saved questions,
otherwise (absent, malformed, or mismatch) build the fresh grid. -/
def getInitialBoard (catalog : List String) (saved : Persisted) : Board :=
  match saved with
  | Persisted.grid parsed =>
      let flatSaved := parsed.flatten.map fun cell => cell.question
      if questionsMatch catalog flatSaved then parsed
      else freshBoard catalog
  | _ => freshBoard catalog

theorem questionsMatch_spec {q s : List String} (h : questionsMatch q s = true)
    (i : Nat) (hi : i < q.length) : s[i]? = some (q[i]) := by
  unfold questionsMatch at h
  rw [List.all_eq_true] at h
  have hie : i < q.enum.length := by rw [List.enum_length]; exact hi
  have hmem : (i, q[i]) ∈ q.enum := by
    have he := List.getElem_enum q i hie
    rw [← he]
    exact List.getElem_mem hie
  have hx := h _ hmem
  simpa using hx

theorem questionsMatch_refl (l : List String) : questionsMatch l l = true := by
  unfold questionsMatch
  rw [List.all_eq_true]
  intro p hp
  obtain ⟨k, hk, rfl⟩ := List.mem_iff_getElem.mp hp
  have hkl : k < l.length := by rwa [List.enum_length] at hk
  simp [List.getElem_enum, List.getElem?_eq_getElem hkl]

theorem prefix_of_questionsMatch {q s : List String}
    (h : questionsMatch q s = true) : q <+: s := by
  have hlen : q.length ≤ s.length := by
    by_contra hlt
    push_neg at hlt
    have hx := questionsMatch_spec h s.length hlt
    rw [List.getElem?_eq_none (le_refl _)] at hx
    exact Option.noConfusion hx
  rw [List.prefix_iff_eq_take]
  apply List.ext_getElem
  · rw [List.length_take]
    omega
  · intro i h1 h2
    have hx := questionsMatch_spec h i h1
    rw [List.getElem?_eq_getElem (by omega)] at hx
    rw [List.getElem_take]
    exact (Option.some.inj hx).symm

theorem cellAt_freshBoard (catalog : List String) (r c : Nat) (hr : r < 5) (hc : c < 5) :
    cellAt (freshBoard catalog) r c
      = { question := catalog.getD (r * 5 + c) "", checked := false } := by
  interval_cases r <;> interval_cases c <;> rfl

theorem freshBoard_flatten_questions (catalog : List String) (hcat : catalog.length = 25) :
    (freshBoard catalog).flatten.map (fun cell => cell.question) = catalog := by
  have hstep : (freshBoard catalog).flatten
      = (List.range 25).map fun k =>
          ({ question := catalog.getD k "", checked := false } : Cell) := by
    unfold freshBoard
    have h5 : List.range 5 = [0, 1, 2, 3, 4] := rfl
    have h25 : List.range 25
        = [0, 1, 2, 3, 4, 5, 6, 7, 8, 9, 10, 11, 12, 13, 14, 15, 16, 17,
           18, 19, 20, 21, 22, 23, 24] := rfl
    rw [h5, h25]
    simp
  rw [hstep, List.map_map]
  apply List.ext_getElem
  · simpa using hcat.symm
  · intro i h1 h2
    rw [List.getElem_map, List.getElem_range]
    exact List.getD_eq_getElem _ _ h2

/-- C3: a persisted 5×5 grid whose flattened question sequence equals
the catalog's is adopted verbatim; in particular every persisted
`checked` flag is preserved position-for-position. -/
theorem getInitialBoard_adopts (catalog : List String) (g : Board) (r c : Nat)
    (hwf : boardWF g)
    (hq : g.flatten.map (fun cell => cell.question) = catalog)
    (hr : r < 5) (hc : c < 5) :
    getInitialBoard catalog (Persisted.grid g) = g ∧
    (cellAt (getInitialBoard catalog (Persisted.grid g)) r c).checked
      = (cellAt g r c).checked := by
  have hmain : getInitialBoard catalog (Persisted.grid g) = g := by
    show (if questionsMatch catalog (g.flatten.map fun cell => cell.question) then g
        else freshBoard catalog) = g
    rw [hq, if_pos (questionsMatch_refl catalog)]
  exact ⟨hmain, by rw [hmain]⟩

/-- C4: an absent, malformed, or catalog-mismatched persisted value is
discarded: the result is the fresh grid, whose cell at `(r, c)` has the
catalog entry at index `r*5+c` as question and `checked = false`. The
mismatch is the failure of the source's element-wise comparison over
the 25 catalog positions. -/
theorem getInitialBoard_fresh (catalog : List String) (saved : Persisted) (r c : Nat)
    (hcat : catalog.length = 25)
    (hbad : saved = Persisted.absent ∨ saved = Persisted.malformed ∨
      ∃ g, saved = Persisted.grid g ∧
        questionsMatch catalog (g.flatten.map fun cell => cell.question) = false)
    (hr : r < 5) (hc : c < 5) :
    getInitialBoard catalog saved = freshBoard catalog ∧
    (cellAt (getInitialBoard catalog saved) r c).question = catalog.getD (r * 5 + c) "" ∧
    (cellAt (getInitialBoard catalog saved) r c).checked = false := by
  have hmain : getInitialBoard catalog saved = freshBoard catalog := by
    rcases hbad with rfl | rfl | ⟨g, rfl, hbad⟩
    · rfl
    · rfl
    · show (if questionsMatch catalog (g.flatten.map fun cell => cell.question) then g
          else freshBoard catalog) = freshBoard catalog
      rw [if_neg (by rw [hbad]; exact Bool.false_ne_true)]
  refine ⟨hmain, ?_, ?_⟩ <;>
    rw [hmain, cellAt_freshBoard catalog r c hr hc]

theorem onModalCheck_flatten_questions (m : ModalState) (b : Board) :
    ((onModalCheckHandler m b).flatten.map fun cell => cell.question)
      = b.flatten.map fun cell => cell.question := by
  unfold onModalCheckHandler
  split
  · rfl
  · rw [List.map_flatten, List.map_flatten]
    congr 1
    apply List.ext_getElem
    · rw [List.length_map, List.length_mapIdx, List.length_map]
    · intro i h1 h2
      have hib : i < b.length := by
        rw [List.length_map, List.length_mapIdx] at h1; exact h1
      rw [List.getElem_map, List.getElem_map]
      rw [getElem_mapIdx_eq _ b i hib (by rw [List.length_mapIdx]; exact hib)]
      split
      · rfl
      · apply List.ext_getElem
        · rw [List.length_map, List.length_mapIdx, List.length_map]
        · intro j g1 g2
          have hjb : j < (b[i]).length := by
            rw [List.length_map, List.length_mapIdx] at g1; exact g1
          rw [List.getElem_map, List.getElem_map]
          rw [getElem_mapIdx_eq _ (b[i]) j hjb (by rw [List.length_mapIdx]; exact hjb)]
          split
          · rfl
          · rfl

/-- C2 (amended): for every persisted value, the initial board's
flattened question sequence has the 25-entry catalog as a prefix (exact
equality can fail only when an adopted persisted grid holds more than
25 cells), and every toggle leaves the flattened question sequence
unchanged. -/
theorem getInitialBoard_questions_prefix (catalog : List String) (saved : Persisted)
    (m : ModalState) (b : Board) (hcat : catalog.length = 25) :
    (catalog <+: ((getInitialBoard catalog saved).flatten.map fun cell => cell.question)) ∧
    ((onModalCheckHandler m b).flatten.map fun cell => cell.question)
      = b.flatten.map fun cell => cell.question := by
  constructor
  · cases saved with
    | grid g =>
        by_cases hq : questionsMatch catalog (g.flatten.map fun cell => cell.question) = true
        · have hadopt : getInitialBoard catalog (Persisted.grid g) = g := by
            show (if questionsMatch catalog (g.flatten.map fun cell => cell.question) then g
                else freshBoard catalog) = g
            rw [if_pos hq]
          rw [hadopt]
          exact prefix_of_questionsMatch hq
        · have hq2 : questionsMatch catalog (g.flatten.map fun cell => cell.question) = false := by
            simpa using hq
          have hfresh : getInitialBoard catalog (Persisted.grid g) = freshBoard catalog := by
            show (if questionsMatch catalog (g.flatten.map fun cell => cell.question) then g
                else freshBoard catalog) = freshBoard catalog
            rw [if_neg (by rw [hq2]; exact Bool.false_ne_true)]
          rw [hfresh, freshBoard_flatten_questions catalog hcat]
    | absent =>
        show catalog <+: ((freshBoard catalog).flatten.map fun cell => cell.question)
        rw [freshBoard_flatten_questions catalog hcat]
    | malformed =>
        show catalog <+: ((freshBoard catalog).flatten.map fun cell => cell.question)
        rw [freshBoard_flatten_questions catalog hcat]
  · exact onModalCheck_flatten_questions m b

/-- Modelled from the spec: the static asset `questions.json` is not
present under `src/`; per the spec it is an ordered list of exactly 25
question records, of which only the question strings matter here.
Modelled as 25 distinct strings. -/
def catalogM : List String :=
  ["Q0", "Q1", "Q2", "Q3", "Q4", "Q5", "Q6", "Q7", "Q8", "Q9", "Q10", "Q11",
   "Q12", "Q13", "Q14", "Q15", "Q16", "Q17", "Q18", "Q19", "Q20", "Q21", "Q22",
   "Q23", "Q24"]

/-- A persisted grid with 26 cells: five catalog-matching rows plus one
extra row. Its flattened question sequence strictly extends the
catalog, yet `getInitialBoard` adopts it verbatim. -/
def gBad : Board := freshBoard catalogM ++ [[{ question := "extra", checked := true }]]

/-- C2 counterexample: for the oversized persisted grid `gBad` the board
produced by initialization does NOT have a flattened question sequence
equal to the catalog's 25-question sequence. -/
theorem getInitialBoard_questions_cex :
    ¬(((getInitialBoard catalogM (Persisted.grid gBad)).flatten.map fun cell => cell.question)
        = catalogM) := by decide

/-- C2 (amended) witness: the theorem at the absent slot and a concrete
toggle. -/
theorem getInitialBoard_questions_prefix_witness :
    catalogM.length = 25 ∧
    ((catalogM <+:
        ((getInitialBoard catalogM Persisted.absent).flatten.map fun cell => cell.question)) ∧
      ((onModalCheckHandler demoModal demoBoard).flatten.map fun cell => cell.question)
        = demoBoard.flatten.map fun cell => cell.question) :=
  ⟨rfl, getInitialBoard_questions_prefix catalogM Persisted.absent demoModal demoBoard rfl⟩

/-- A persisted 5×5 grid carrying the catalog's questions with cell
(1,2) checked (the result of one toggle on the fresh board). -/
def savedBoard : Board := onModalCheckHandler demoModal (freshBoard catalogM)

/-- C3 witness: adoption of a concrete matching persisted grid. -/
theorem getInitialBoard_adopts_witness :
    (boardWF savedBoard ∧
      savedBoard.flatten.map (fun cell => cell.question) = catalogM) ∧
    (getInitialBoard catalogM (Persisted.grid savedBoard) = savedBoard ∧
      (cellAt (getInitialBoard catalogM (Persisted.grid savedBoard)) 1 2).checked
        = (cellAt savedBoard 1 2).checked) :=
  ⟨⟨by decide, by decide⟩,
    getInitialBoard_adopts catalogM savedBoard 1 2 (by decide) (by decide) (by decide)
      (by decide)⟩

/-- C4 witness: the fresh grid built when the slot is absent. -/
theorem getInitialBoard_fresh_witness :
    catalogM.length = 25 ∧
    (getInitialBoard catalogM Persisted.absent = freshBoard catalogM ∧
      (cellAt (getInitialBoard catalogM Persisted.absent) 1 3).question
        = catalogM.getD (1 * 5 + 3) "" ∧
      (cellAt (getInitialBoard catalogM Persisted.absent) 1 3).checked = false) :=
  ⟨rfl,
    getInitialBoard_fresh catalogM Persisted.absent 1 3 rfl (Or.inl rfl) (by decide)
      (by decide)⟩
